import Mathlib

/-!
# Verification of the challenge-4 orchestrator message pipeline

Shallow embedding of the orchestrator's consume pipeline
(`pollMessages` → `processMessage` → `handleBusinessLogic` → `deleteMessage`)
together with the Lambda invocation helper (`InvokeSync`) and the
SNS-enveloped consumer variant.

External collaborators (the SQS transport, the Lambda invocation transport,
the DynamoDB scan, the JSON decoder of the standard library, and the `rand`
source) are modelled as oracle parameters gathered in an `Env` record; the
pipeline itself is translated line by line from the Go source.  Each
pipeline run produces a trace of the externally visible calls it makes
(validator invocation, registry scan, worker invocation, queue delete), so
that ordering and presence/absence of acknowledgements can be stated.
-/

/-- A parsed JSON value tree, the result of `json.Unmarshal` into `any`.
Numbers are modelled as integers: no claim inspects a numeric payload
beyond the integer `statusCode` field. -/
inductive Json where
  | null : Json
  | bool : Bool → Json
  | num : Int → Json
  | str : String → Json
  | arr : List Json → Json
  | obj : List (String × Json) → Json

/-- An SQS message as seen by `processMessage`: `Body`, `ReceiptHandle` and
`MessageId` are all nullable pointers in the AWS SDK type. -/
structure Message where
  body : Option String
  receiptHandle : Option String
  messageId : Option String
deriving DecidableEq

/-- `type Status string` from the registry model. -/
abbrev Status := String

/-- `Healthy Status = "saludable"` -/
def Healthy : Status := "saludable"

/-- `Unhealthy Status = "fallando"` -/
def Unhealthy : Status := "fallando"

/-- A worker descriptor (`type Lambda struct`) stored in the DynamoDB
registry table. -/
structure Lambda where
  id : String
  arn : String
  url : String
  status : Status
  name : String
  lastHeartBeat : String
deriving DecidableEq

/-- `type LambdaResponse struct { StatusCode int; Body any }`, the decoded
integrity-validator verdict. -/
structure LambdaResponse where
  statusCode : Int
  respBody : Json

/-- Outcome of one raw `lambda.Invoke` transport call: either a transport
error, or a response carrying a payload and an optional `FunctionError`
marker. -/
inductive InvokeResult where
  | transportError : InvokeResult
  | response : String → Option String → InvokeResult

/-- `LambdaClient.InvokeSync`: returns the response payload, or an error when
the transport call failed or when the response carries a `FunctionError`
signal.  (`json.Marshal` of the payload is absorbed into the `invoke`
oracle: the payloads handled here come from `json.Unmarshal` and always
re-marshal.) -/
def InvokeSync (invoke : String → α → InvokeResult) (functionName : String)
    (payload : α) : Option String :=
  match invoke functionName payload with
  | InvokeResult.transportError => none
  | InvokeResult.response p fe =>
      match fe with
      | some _ => none
      | none => some p

/-- The oracles standing for the external collaborators used by one pipeline
pass.  `α` is the opaque decoded payload type (`any` in the source), `Item`
the raw DynamoDB item type. -/
structure Env (α : Type) (Item : Type) where
  /-- `lambdaClient.Invoke` transport, for both validator and worker calls. -/
  invoke : String → α → InvokeResult
  /-- `json.Unmarshal(payload, &integrity)` into `LambdaResponse`. -/
  parseLambdaResponse : String → Option LambdaResponse
  /-- `dynamoDBClient.Scan(ctx, nil, nil)`. -/
  scan : Except String (List Item)
  /-- `attributevalue.UnmarshalMap(item, &lambda)`. -/
  unmarshalLambda : Item → Option Lambda
  /-- `rand.Intn`: the contract `randIntn n < n` for `0 < n` is assumed
  explicitly by the theorems that rely on it. -/
  randIntn : Nat → Nat

/-- Externally visible calls made during one pipeline pass, in order. -/
inductive Event (α : Type) where
  | invokeValidator : String → α → Event α
  | scanRegistry : Event α
  | invokeWorker : String → α → Event α
  | deleteMsg : String → Event α
deriving DecidableEq

/-- The hard-coded integrity validator target. -/
def IntegrityLambda : String :=
  "arn:aws:lambda:us-east-1:652276263254:function:validacionDatos-py"

/-- The scan-result loop of `handleBusinessLogic`: unmarshal every item,
aborting with an error at the first item that fails to unmarshal, and keep
exactly the descriptors whose `Status` is `Healthy`. -/
def healthyLambdas (unm : Item → Option Lambda) : List Item → Except String (List Lambda)
  | [] => Except.ok []
  | item :: rest =>
      match unm item with
      | none => Except.error "failed to unmarshal item"
      | some l =>
          match healthyLambdas unm rest with
          | Except.error e => Except.error e
          | Except.ok ls =>
              Except.ok (if l.status = Healthy then l :: ls else ls)

/-- The `switch len(lambdas)` selection of `handleBusinessLogic`, on a
non-empty healthy list `l :: rest`: one candidate is chosen
deterministically, several by `lambdas[rand.Intn(len(lambdas))]`. -/
def selectLambda (randIntn : Nat → Nat) (l : Lambda) (rest : List Lambda) : Lambda :=
  match rest with
  | [] => l
  | _ :: _ => (l :: rest).getD (randIntn (l :: rest).length) l

/-- `SQSConsumer.handleBusinessLogic` of the orchestrator variant: integrity
gate, registry scan, health filter, selection, dispatch.  Returns the trace
of external calls and the Go function's `error` result. -/
def handleBusinessLogic (env : Env α Item) (msg : α) :
    List (Event α) × Except String Unit :=
  match InvokeSync env.invoke IntegrityLambda msg with
  | none =>
      ([Event.invokeValidator IntegrityLambda msg],
       Except.error "error calling the integrity lambda")
  | some payload =>
      match env.parseLambdaResponse payload with
      | none =>
          ([Event.invokeValidator IntegrityLambda msg],
           Except.error "error unmarshalling json")
      | some integrity =>
          if integrity.statusCode ≠ 200 then
            ([Event.invokeValidator IntegrityLambda msg],
             Except.error "not matching signatures")
          else
            match env.scan with
            | Except.error _ =>
                ([Event.invokeValidator IntegrityLambda msg, Event.scanRegistry],
                 Except.error "item with id: lambdaActiva not found")
            | Except.ok items =>
                match healthyLambdas env.unmarshalLambda items with
                | Except.error e =>
                    ([Event.invokeValidator IntegrityLambda msg, Event.scanRegistry],
                     Except.error e)
                | Except.ok [] =>
                    ([Event.invokeValidator IntegrityLambda msg, Event.scanRegistry],
                     Except.error "no healthy lambdas found")
                | Except.ok (l :: rest) =>
                    match InvokeSync env.invoke (selectLambda env.randIntn l rest).arn msg with
                    | none =>
                        ([Event.invokeValidator IntegrityLambda msg, Event.scanRegistry,
                          Event.invokeWorker (selectLambda env.randIntn l rest).arn msg],
                         Except.error "error invoking lambda")
                    | some _ =>
                        ([Event.invokeValidator IntegrityLambda msg, Event.scanRegistry,
                          Event.invokeWorker (selectLambda env.randIntn l rest).arn msg],
                         Except.ok ())

/-- `SQSConsumer.deleteMessage`: the `DeleteMessage` call is issued only when
the receipt handle is present; a nil handle is logged and skipped. -/
def deleteMessage (m : Message) : List (Event α) :=
  match m.receiptHandle with
  | none => []
  | some h => [Event.deleteMsg h]

/-- `SQSConsumer.processMessage` of the orchestrator variant: a nil or
undecodable body is deleted immediately; a business-logic error leaves the
message unacknowledged; otherwise the message is deleted after the business
logic finishes. -/
def processMessage (env : Env α Item) (parse : String → Option α) (m : Message) :
    List (Event α) :=
  match m.body with
  | none => deleteMessage m
  | some body =>
      match parse body with
      | none => deleteMessage m
      | some appMessage =>
          match handleBusinessLogic env appMessage with
          | (evs, Except.error _) => evs
          | (evs, Except.ok _) => evs ++ deleteMessage m

/-- The fixed parameters of the `ReceiveMessage` request issued by
`pollMessages`. -/
structure ReceiveMessageInput where
  maxNumberOfMessages : Nat
  waitTimeSeconds : Nat
  visibilityTimeout : Nat
deriving DecidableEq

/-- The request `pollMessages` sends: at most 10 messages, 20 s long poll,
30 s visibility timeout. -/
def receiveInput : ReceiveMessageInput :=
  { maxNumberOfMessages := 10, waitTimeSeconds := 20, visibilityTimeout := 30 }

/-- Result of one poll cycle: a fixed back-off sleep (in seconds) on receive
failure, or the per-message traces of the sequentially processed batch. -/
inductive PollResult (α : Type) where
  | backoff : Nat → PollResult α
  | processed : List (List (Event α)) → PollResult α
deriving DecidableEq

/-- `SQSConsumer.pollMessages`: one receive call; on failure sleep 5 s and
return, on success process every returned message in receipt order. -/
def pollMessages (env : Env α Item) (parse : String → Option α)
    (receive : ReceiveMessageInput → Except String (List Message)) : PollResult α :=
  match receive receiveInput with
  | Except.error _ => PollResult.backoff 5
  | Except.ok msgs => PollResult.processed (msgs.map (processMessage env parse))

/-! ## The SNS-enveloped consumer variant -/

/-- `type SNSWrapper struct`: the notification envelope the SNS variant
unmarshals the raw body into.  The Go field `Type` is spelled `msgType`
here because `Type` is reserved in Lean. -/
structure SNSWrapper where
  msgType : String
  Message : String
  MessageId : String
  TopicArn : String
  Timestamp : String
deriving DecidableEq

/-- Last-wins lookup of a key in a decoded JSON object, matching how the Go
decoder lets a repeated key overwrite an earlier one. -/
def lastLookup (fields : List (String × Json)) (k : String) : Option Json :=
  fields.foldl (fun acc p => if p.1 = k then some p.2 else acc) none

/-- Decoding one `string` struct field from a JSON object: an absent key or
a JSON `null` leaves the zero value `""`, a JSON string is taken verbatim,
any other JSON value is an unmarshal error. -/
def stringField (fields : List (String × Json)) (k : String) : Option String :=
  match lastLookup fields k with
  | none => some ""
  | some Json.null => some ""
  | some (Json.str s) => some s
  | some _ => none

/-- `json.Unmarshal(body, &snsWrapper)`: succeeds on a JSON object whose
five wrapper keys (when present) are strings, and on JSON `null` (which
leaves the zero wrapper); fails on malformed JSON and on any other JSON
value.  `parse` is the oracle for raw JSON syntax. -/
def unmarshalSNSWrapper (parse : String → Option Json) (body : String) :
    Option SNSWrapper :=
  match parse body with
  | some (Json.obj fields) =>
      match stringField fields "Type", stringField fields "Message",
            stringField fields "MessageId", stringField fields "TopicArn",
            stringField fields "Timestamp" with
      | some t, some m, some mi, some ta, some ts =>
          some { msgType := t, Message := m, MessageId := mi,
                 TopicArn := ta, Timestamp := ts }
      | _, _, _, _, _ => none
  | some Json.null => some { msgType := "", Message := "", MessageId := "",
                             TopicArn := "", Timestamp := "" }
  | _ => none

/-- `json.Unmarshal(s, &appMessage)` into `map[string]any`: succeeds on a
JSON object (yielding its fields) and on JSON `null` (leaving the nil map);
fails otherwise. -/
def unmarshalMapStringAny (parse : String → Option Json) (s : String) :
    Option (List (String × Json)) :=
  match parse s with
  | some (Json.obj fields) => some fields
  | some Json.null => some []
  | _ => none

/-- `SQSConsumer.processMessage` of the SNS variant (`consumer.go`): unwrap
the SNS envelope, then parse its `Message` field as the payload object; any
decode failure deletes immediately.  Its `handleBusinessLogic` is a stub
that logs and returns `nil`, so every decodable message is also deleted. -/
def processMessageSNS (parse : String → Option Json) (m : Message) :
    List (Event (List (String × Json))) :=
  match m.body with
  | none => deleteMessage m
  | some body =>
      match unmarshalSNSWrapper parse body with
      | none => deleteMessage m
      | some snsWrapper =>
          match unmarshalMapStringAny parse snsWrapper.Message with
          | none => deleteMessage m
          | some _ => deleteMessage m

/-! ## Envelope formats and startup configuration -/

/-- The two supported body shapes. -/
inductive EnvelopeFormat where
  | direct : EnvelopeFormat
  | enveloped : EnvelopeFormat
deriving DecidableEq

/-- The environment-derived startup configuration read by `main`
(`SQS_QUEUE_URL`, `AWS_REGION`, `HEALTH_PORT`); it contains no
envelope-format selector. -/
structure Config where
  queueURL : String
  region : String
  healthPort : String
deriving DecidableEq

/-- Decode step of the direct (orchestrator) variant: the raw body is the
payload, unmarshalled into `any` as-is. -/
def decodeDirect (parse : String → Option Json) (body : String) : Option Json :=
  parse body

/-- Decode step of the SNS variant: unwrap the envelope, then parse its
`Message` field as a `map[string]any` payload. -/
def decodeEnveloped (parse : String → Option Json) (body : String) :
    Option (List (String × Json)) :=
  match unmarshalSNSWrapper parse body with
  | none => none
  | some w => unmarshalMapStringAny parse w.Message

/-- The envelope format the orchestrator variant (`src/unnamed/part_001`)
runs with, as a function of the startup configuration: its
`processMessage` unmarshals the raw body directly for every message and
config, so the format is the constant `direct`. -/
def variantDirectFormat (_cfg : Config) : EnvelopeFormat :=
  EnvelopeFormat.direct

/-- The envelope format the SNS variant (`src/consumer.go`) runs with, as a
function of the startup configuration: its `processMessage` unwraps the SNS
envelope for every message and config, so the format is the constant
`enveloped`. -/
def variantEnvelopedFormat (_cfg : Config) : EnvelopeFormat :=
  EnvelopeFormat.enveloped

/-! ## Concrete test fixtures -/

/-- A healthy registry descriptor. -/
def demoLambdaA : Lambda :=
  { id := "a", arn := "arn:worker-a", url := "urlA", status := Healthy,
    name := "A", lastHeartBeat := "t0" }

/-- A second healthy registry descriptor. -/
def demoLambdaB : Lambda :=
  { id := "b", arn := "arn:worker-b", url := "urlB", status := Healthy,
    name := "B", lastHeartBeat := "t1" }

/-- An unhealthy registry descriptor. -/
def demoLambdaC : Lambda :=
  { id := "c", arn := "arn:worker-c", url := "urlC", status := Unhealthy,
    name := "C", lastHeartBeat := "t2" }

/-- Raw registry items (indices into `demoUnmarshal`). -/
def demoItems : List Nat := [0, 1, 2]

/-- Concrete `UnmarshalMap` oracle: items 0 and 1 are the healthy
descriptors, item 2 the unhealthy one, anything else is malformed. -/
def demoUnmarshal : Nat → Option Lambda := fun i =>
  if i = 0 then some demoLambdaA
  else if i = 1 then some demoLambdaB
  else if i = 2 then some demoLambdaC
  else none

/-- An environment in which every external call succeeds and the integrity
verdict is 200. -/
def demoEnvOk : Env Nat Nat :=
  { invoke := fun _ _ => InvokeResult.response "verdict" none,
    parseLambdaResponse := fun s =>
      if s = "verdict" then some { statusCode := 200, respBody := Json.null } else none,
    scan := Except.ok demoItems,
    unmarshalLambda := demoUnmarshal,
    randIntn := fun _ => 0 }

/-- Like `demoEnvOk` but the integrity verdict carries status 500. -/
def demoEnvRejected : Env Nat Nat :=
  { demoEnvOk with
    parseLambdaResponse := fun s =>
      if s = "verdict" then some { statusCode := 500, respBody := Json.null } else none }

/-- Like `demoEnvOk` but the registry scan yields only the unhealthy item. -/
def demoEnvUnhealthyOnly : Env Nat Nat :=
  { demoEnvOk with scan := Except.ok [2] }

/-- Like `demoEnvOk` but the scan yields a healthy item together with a
malformed one (index 7 fails to unmarshal). -/
def demoEnvBadItem : Env Nat Nat :=
  { demoEnvOk with scan := Except.ok [0, 7] }

/-- A well-formed message whose body decodes (under `String.toNat?`) to the
payload `42`. -/
def demoMsg : Message :=
  { body := some "42", receiptHandle := some "rh-1", messageId := some "mid-1" }

/-- A message whose body is present but undecodable. -/
def demoBadMsg : Message :=
  { body := some "not json", receiptHandle := some "rh-2", messageId := some "mid-2" }

/-- The payload object of the worked example: `{"orderId":"123","amount":42}`. -/
def innerFields : List (String × Json) :=
  [("orderId", Json.str "123"), ("amount", Json.num 42)]

/-- The raw text of the example payload. -/
def innerBody : String := "\x7b\"orderId\":\"123\",\"amount\":42\x7d"

/-- The raw text of an SNS notification wrapping `innerBody`. -/
def envBody : String :=
  "\x7b\"Type\":\"Notification\",\"Message\":\"\x7b\\\"orderId\\\":\\\"123\\\",\\\"amount\\\":42\x7d\",\"MessageId\":\"m-1\",\"TopicArn\":\"arn:topic\",\"Timestamp\":\"2024-01-01T00:00:00Z\"\x7d"

/-- The JSON tree of `envBody`. -/
def envTree : Json :=
  Json.obj [("Type", Json.str "Notification"), ("Message", Json.str innerBody),
            ("MessageId", Json.str "m-1"), ("TopicArn", Json.str "arn:topic"),
            ("Timestamp", Json.str "2024-01-01T00:00:00Z")]

/-- A concrete JSON-syntax oracle for the fixture strings: the envelope, the
inner payload, and two non-object JSON values. -/
def demoParse (s : String) : Option Json :=
  if s = envBody then some envTree
  else if s = innerBody then some (Json.obj innerFields)
  else if s = "true" then some (Json.bool true)
  else if s = "42" then some (Json.num 42)
  else none

/-- An all-success environment over JSON payloads (for the direct variant
instantiated at `α := Json`). -/
def demoEnvJson : Env Json Nat :=
  { invoke := fun _ _ => InvokeResult.response "verdict" none,
    parseLambdaResponse := fun s =>
      if s = "verdict" then some { statusCode := 200, respBody := Json.null } else none,
    scan := Except.ok demoItems,
    unmarshalLambda := demoUnmarshal,
    randIntn := fun _ => 0 }

/-! ## Structural lemmas about the pipeline -/

theorem deleteMessage_mem {α : Type} {m : Message} {e : Event α}
    (he : e ∈ (deleteMessage m : List (Event α))) : ∃ h, e = Event.deleteMsg h := by
  unfold deleteMessage at he
  split at he
  · cases he
  · simp at he
    exact ⟨_, he⟩

theorem deleteMessage_of_handle {α : Type} {m : Message} {h : String}
    (hh : m.receiptHandle = some h) :
    (deleteMessage m : List (Event α)) = [Event.deleteMsg h] := by
  unfold deleteMessage
  rw [hh]

theorem handleBusinessLogic_no_delete (env : Env α Item) (msg : α) (h : String) :
    Event.deleteMsg h ∉ (handleBusinessLogic env msg).1 := by
  unfold handleBusinessLogic
  repeat' split
  all_goals simp

theorem handleBusinessLogic_ok_shape (env : Env α Item) (msg : α) :
    (handleBusinessLogic env msg).2 = Except.ok () →
    ∃ arn resp, InvokeSync env.invoke arn msg = some resp ∧
      (handleBusinessLogic env msg).1 =
        [Event.invokeValidator IntegrityLambda msg, Event.scanRegistry,
         Event.invokeWorker arn msg] := by
  unfold handleBusinessLogic
  repeat' split
  all_goals simp
  case _ heq => exact ⟨_, heq⟩

theorem processMessage_of_decode {env : Env α Item} {parse : String → Option α}
    {m : Message} {b : String} {msg : α}
    (hb : m.body = some b) (hp : parse b = some msg) :
    processMessage env parse m =
      (handleBusinessLogic env msg).1 ++
        (match (handleBusinessLogic env msg).2 with
         | Except.ok _ => deleteMessage m
         | Except.error _ => []) := by
  unfold processMessage
  rw [hb]
  dsimp only
  rw [hp]
  dsimp only
  rcases hbl : handleBusinessLogic env msg with ⟨evs, res⟩
  cases res <;> simp

theorem processMessage_of_error {env : Env α Item} {parse : String → Option α}
    {m : Message} {b : String} {msg : α} {e : String}
    (hb : m.body = some b) (hp : parse b = some msg)
    (herr : (handleBusinessLogic env msg).2 = Except.error e) :
    processMessage env parse m = (handleBusinessLogic env msg).1 := by
  rw [processMessage_of_decode hb hp, herr]
  simp

theorem processMessage_of_ok {env : Env α Item} {parse : String → Option α}
    {m : Message} {b : String} {msg : α}
    (hb : m.body = some b) (hp : parse b = some msg)
    (hok : (handleBusinessLogic env msg).2 = Except.ok ()) :
    processMessage env parse m = (handleBusinessLogic env msg).1 ++ deleteMessage m := by
  rw [processMessage_of_decode hb hp, hok]

theorem handleBusinessLogic_gate_fail {env : Env α Item} {msg : α}
    (hfail : InvokeSync env.invoke IntegrityLambda msg = none ∨
      (∃ p, InvokeSync env.invoke IntegrityLambda msg = some p ∧
        env.parseLambdaResponse p = none) ∨
      (∃ p r, InvokeSync env.invoke IntegrityLambda msg = some p ∧
        env.parseLambdaResponse p = some r ∧ r.statusCode ≠ 200)) :
    (∃ e, (handleBusinessLogic env msg).2 = Except.error e) ∧
    (handleBusinessLogic env msg).1 = [Event.invokeValidator IntegrityLambda msg] := by
  unfold handleBusinessLogic
  rcases hfail with h | ⟨p, hp, hplr⟩ | ⟨p, r, hp, hplr, hsc⟩
  · rw [h]
    exact ⟨⟨_, rfl⟩, rfl⟩
  · rw [hp]
    dsimp only
    rw [hplr]
    exact ⟨⟨_, rfl⟩, rfl⟩
  · rw [hp]
    dsimp only
    rw [hplr]
    dsimp only
    rw [if_pos hsc]
    exact ⟨⟨_, rfl⟩, rfl⟩

theorem scanRegistry_mem_iff (env : Env α Item) (msg : α) :
    Event.scanRegistry ∈ (handleBusinessLogic env msg).1 ↔
      ∃ p r, InvokeSync env.invoke IntegrityLambda msg = some p ∧
        env.parseLambdaResponse p = some r ∧ r.statusCode = 200 := by
  unfold handleBusinessLogic
  rcases hI : InvokeSync env.invoke IntegrityLambda msg with _ | payload
  · simp
  · dsimp only
    rcases hP : env.parseLambdaResponse payload with _ | r
    · simp [hP]
    · dsimp only
      by_cases hsc : r.statusCode = 200
      · rw [if_neg (by simp [hsc])]
        rcases hS : env.scan with e | items
        · simp [hP, hsc]
        · dsimp only
          rcases hF : healthyLambdas env.unmarshalLambda items with e | ls
          · simp [hP, hsc]
          · rcases ls with _ | ⟨l, rest⟩
            · simp [hP, hsc]
            · rcases hW : InvokeSync env.invoke (selectLambda env.randIntn l rest).arn msg with _ | resp
              · simp [hP, hsc, hW]
              · simp [hP, hsc, hW]
      · rw [if_pos hsc]
        simp [hP, hsc]

theorem handleBusinessLogic_gate_pass {env : Env α Item} {msg : α}
    {p : String} {r : LambdaResponse}
    (hI : InvokeSync env.invoke IntegrityLambda msg = some p)
    (hP : env.parseLambdaResponse p = some r) (hsc : r.statusCode = 200) :
    handleBusinessLogic env msg =
      (match env.scan with
       | Except.error _ =>
           ([Event.invokeValidator IntegrityLambda msg, Event.scanRegistry],
            Except.error "item with id: lambdaActiva not found")
       | Except.ok items =>
           match healthyLambdas env.unmarshalLambda items with
           | Except.error e =>
               ([Event.invokeValidator IntegrityLambda msg, Event.scanRegistry],
                Except.error e)
           | Except.ok [] =>
               ([Event.invokeValidator IntegrityLambda msg, Event.scanRegistry],
                Except.error "no healthy lambdas found")
           | Except.ok (l :: rest) =>
               match InvokeSync env.invoke (selectLambda env.randIntn l rest).arn msg with
               | none =>
                   ([Event.invokeValidator IntegrityLambda msg, Event.scanRegistry,
                     Event.invokeWorker (selectLambda env.randIntn l rest).arn msg],
                    Except.error "error invoking lambda")
               | some _ =>
                   ([Event.invokeValidator IntegrityLambda msg, Event.scanRegistry,
                     Event.invokeWorker (selectLambda env.randIntn l rest).arn msg],
                    Except.ok ())) := by
  unfold handleBusinessLogic
  rw [hI]
  dsimp only
  rw [hP]
  dsimp only
  rw [if_neg (by simp [hsc])]

theorem healthyLambdas_mem {unm : Item → Option Lambda} {items : List Item}
    {ls : List Lambda} (h : healthyLambdas unm items = Except.ok ls) :
    ∀ l ∈ ls, l.status = Healthy := by
  induction items generalizing ls with
  | nil =>
      unfold healthyLambdas at h
      injection h with h
      subst h
      intro l hl
      cases hl
  | cons a rest ih =>
      unfold healthyLambdas at h
      rcases ha : unm a with _ | l
      · rw [ha] at h
        cases h
      · rw [ha] at h
        dsimp only at h
        rcases hr : healthyLambdas unm rest with e | ls'
        · rw [hr] at h
          cases h
        · rw [hr] at h
          dsimp only at h
          by_cases hst : l.status = Healthy
          · rw [if_pos hst] at h
            injection h with h
            subst h
            intro x hx
            rcases List.mem_cons.mp hx with rfl | hx'
            · exact hst
            · exact ih hr x hx'
          · rw [if_neg hst] at h
            injection h with h
            subst h
            exact ih hr

theorem healthyLambdas_error_of_bad {unm : Item → Option Lambda} {items : List Item}
    {bad : Item} (hmem : bad ∈ items) (hbad : unm bad = none) :
    ∃ e, healthyLambdas unm items = Except.error e := by
  induction items with
  | nil => cases hmem
  | cons a rest ih =>
      unfold healthyLambdas
      rcases List.mem_cons.mp hmem with rfl | hmem'
      · rw [hbad]
        exact ⟨_, rfl⟩
      · rcases ha : unm a with _ | l
        · exact ⟨_, rfl⟩
        · rcases ih hmem' with ⟨e, he⟩
          rw [he]
          exact ⟨e, rfl⟩

theorem selectLambda_mem {rand : Nat → Nat}
    (hrand : ∀ n, 0 < n → rand n < n) (l : Lambda) (rest : List Lambda) :
    selectLambda rand l rest ∈ l :: rest := by
  unfold selectLambda
  cases rest with
  | nil => simp
  | cons b bs =>
      dsimp only
      have hlt : rand (l :: b :: bs).length < (l :: b :: bs).length :=
        hrand _ (by simp)
      rw [List.getD_eq_getElem _ _ hlt]
      exact List.getElem_mem hlt

theorem handleBusinessLogic_fst_head (env : Env α Item) (msg : α) :
    ∃ tl, (handleBusinessLogic env msg).1 =
      Event.invokeValidator IntegrityLambda msg :: tl := by
  unfold handleBusinessLogic
  repeat' split
  all_goals exact ⟨_, rfl⟩

/-- A concrete decoder for numeric fixture bodies. -/
def demoParseNat (s : String) : Option Nat :=
  if s = "42" then some 42 else none

/-! ## The claims -/

/-- C1: for every message whose body decodes successfully, a delete
(acknowledge) event is emitted only after the dispatch to the selected
worker has succeeded: when the business logic fails at the integrity gate,
the health filter or the dispatch, the trace carries no delete event, and
when it succeeds the delete events follow a successful worker
invocation. -/
theorem ack_only_after_successful_dispatch
    (env : Env α Item) (parse : String → Option α) (m : Message)
    (b : String) (msg : α)
    (hb : m.body = some b) (hp : parse b = some msg) :
    (∀ e, (handleBusinessLogic env msg).2 = Except.error e →
      processMessage env parse m = (handleBusinessLogic env msg).1 ∧
      ∀ h, Event.deleteMsg h ∉ processMessage env parse m) ∧
    ((handleBusinessLogic env msg).2 = Except.ok () →
      ∃ arn resp, InvokeSync env.invoke arn msg = some resp ∧
        processMessage env parse m =
          [Event.invokeValidator IntegrityLambda msg, Event.scanRegistry,
           Event.invokeWorker arn msg] ++ deleteMessage m) := by
  constructor
  · intro e he
    refine ⟨processMessage_of_error hb hp he, ?_⟩
    intro h
    rw [processMessage_of_error hb hp he]
    exact handleBusinessLogic_no_delete env msg h
  · intro hok
    rcases handleBusinessLogic_ok_shape env msg hok with ⟨arn, resp, hws, hevs⟩
    refine ⟨arn, resp, hws, ?_⟩
    rw [processMessage_of_ok hb hp hok, hevs]

/-- Witness for C1: the all-success environment dispatches to worker A and
then deletes the message. -/
theorem ack_only_after_successful_dispatch_witness :
    demoMsg.body = some "42" ∧ demoParseNat "42" = some 42 ∧
    (∃ arn resp, InvokeSync demoEnvOk.invoke arn 42 = some resp ∧
      processMessage demoEnvOk demoParseNat demoMsg =
        [Event.invokeValidator IntegrityLambda 42, Event.scanRegistry,
         Event.invokeWorker arn 42] ++ deleteMessage demoMsg) :=
  ⟨rfl, rfl,
    (ack_only_after_successful_dispatch demoEnvOk demoParseNat demoMsg "42" 42
      rfl rfl).2 rfl⟩

/-- C2: a message whose body is absent or undecodable under the active
envelope format is deleted immediately, with no validator and no worker
invocation; stated for the direct variant and for the SNS variant. -/
theorem undecodable_message_acked_without_calls
    (env : Env α Item) (parse : String → Option α) (parseJ : String → Option Json) :
    (∀ m : Message, (m.body = none ∨ ∃ b, m.body = some b ∧ parse b = none) →
      processMessage env parse m = deleteMessage m ∧
      (∀ fn p, Event.invokeValidator fn p ∉ processMessage env parse m) ∧
      (∀ arn p, Event.invokeWorker arn p ∉ processMessage env parse m) ∧
      ∀ h, m.receiptHandle = some h →
        processMessage env parse m = [Event.deleteMsg h]) ∧
    (∀ m : Message,
      (m.body = none ∨ ∃ b, m.body = some b ∧
        (unmarshalSNSWrapper parseJ b = none ∨
         ∃ w, unmarshalSNSWrapper parseJ b = some w ∧
           unmarshalMapStringAny parseJ w.Message = none)) →
      processMessageSNS parseJ m = deleteMessage m ∧
      ∀ h, m.receiptHandle = some h →
        processMessageSNS parseJ m = [Event.deleteMsg h]) := by
  constructor
  · intro m hdec
    have hdel : processMessage env parse m = deleteMessage m := by
      unfold processMessage
      rcases hdec with hb | ⟨b, hb, hpb⟩
      · rw [hb]
      · rw [hb]
        dsimp only
        rw [hpb]
    refine ⟨hdel, ?_, ?_, ?_⟩
    · intro fn p hmem
      rw [hdel] at hmem
      rcases deleteMessage_mem hmem with ⟨h, heq⟩
      cases heq
    · intro arn p hmem
      rw [hdel] at hmem
      rcases deleteMessage_mem hmem with ⟨h, heq⟩
      cases heq
    · intro h hh
      rw [hdel, deleteMessage_of_handle hh]
  · intro m hdec
    have hdel : processMessageSNS parseJ m = deleteMessage m := by
      unfold processMessageSNS
      rcases hm : m.body with _ | b
      · rfl
      · dsimp only
        rcases hw : unmarshalSNSWrapper parseJ b with _ | w
        · rfl
        · dsimp only
          rcases hin : unmarshalMapStringAny parseJ w.Message with _ | fields <;> rfl
    exact ⟨hdel, fun h hh => by rw [hdel, deleteMessage_of_handle hh]⟩

/-- Witness for C2: an unparsable body is acknowledged with no validator or
worker call, in both variants. -/
theorem undecodable_message_acked_without_calls_witness :
    demoBadMsg.body = some "not json" ∧ demoParseNat "not json" = none ∧
    unmarshalSNSWrapper demoParse "not json" = none ∧
    (processMessage demoEnvOk demoParseNat demoBadMsg = deleteMessage demoBadMsg ∧
     (∀ fn p, Event.invokeValidator fn p ∉ processMessage demoEnvOk demoParseNat demoBadMsg) ∧
     (∀ arn p, Event.invokeWorker arn p ∉ processMessage demoEnvOk demoParseNat demoBadMsg) ∧
     ∀ h, demoBadMsg.receiptHandle = some h →
       processMessage demoEnvOk demoParseNat demoBadMsg = [Event.deleteMsg h]) ∧
    (processMessageSNS demoParse demoBadMsg = deleteMessage demoBadMsg ∧
     ∀ h, demoBadMsg.receiptHandle = some h →
       processMessageSNS demoParse demoBadMsg = [Event.deleteMsg h]) :=
  ⟨rfl, rfl, rfl,
    (undecodable_message_acked_without_calls demoEnvOk demoParseNat demoParse).1
      demoBadMsg (Or.inr ⟨"not json", rfl, rfl⟩),
    (undecodable_message_acked_without_calls demoEnvOk demoParseNat demoParse).2
      demoBadMsg (Or.inr ⟨"not json", rfl, Or.inl rfl⟩)⟩

/-- C3: the integrity gate accepts exactly when the validator call
succeeded and the decoded verdict's statusCode is 200 (processing then
reaches the registry scan); on a validator failure, an undecodable verdict
or any other status code, the business logic stops with an error having
invoked only the validator, and any message decoding to that payload is
left unacknowledged. -/
theorem integrity_gate_acceptance_iff_200
    (env : Env α Item) (msg : α) :
    (Event.scanRegistry ∈ (handleBusinessLogic env msg).1 ↔
      ∃ p r, InvokeSync env.invoke IntegrityLambda msg = some p ∧
        env.parseLambdaResponse p = some r ∧ r.statusCode = 200) ∧
    ((InvokeSync env.invoke IntegrityLambda msg = none ∨
      (∃ p, InvokeSync env.invoke IntegrityLambda msg = some p ∧
        env.parseLambdaResponse p = none) ∨
      (∃ p r, InvokeSync env.invoke IntegrityLambda msg = some p ∧
        env.parseLambdaResponse p = some r ∧ r.statusCode ≠ 200)) →
      (∃ e, (handleBusinessLogic env msg).2 = Except.error e) ∧
      (handleBusinessLogic env msg).1 = [Event.invokeValidator IntegrityLambda msg] ∧
      ∀ (parse : String → Option α) (m : Message) (b : String),
        m.body = some b → parse b = some msg →
        ∀ h, Event.deleteMsg h ∉ processMessage env parse m) := by
  refine ⟨scanRegistry_mem_iff env msg, ?_⟩
  intro hfail
  obtain ⟨⟨e, he⟩, hevs⟩ := handleBusinessLogic_gate_fail hfail
  refine ⟨⟨e, he⟩, hevs, ?_⟩
  intro parse m b hb hp h
  rw [processMessage_of_error hb hp he]
  exact handleBusinessLogic_no_delete env msg h

/-- Witness for C3: a 500 verdict stops processing with only the validator
invoked and no acknowledgement. -/
theorem integrity_gate_acceptance_iff_200_witness :
    demoEnvRejected.parseLambdaResponse "verdict" =
      some { statusCode := 500, respBody := Json.null } ∧
    ((∃ e, (handleBusinessLogic demoEnvRejected 42).2 = Except.error e) ∧
     (handleBusinessLogic demoEnvRejected 42).1 =
       [Event.invokeValidator IntegrityLambda 42] ∧
     ∀ (parse : String → Option Nat) (m : Message) (b : String),
       m.body = some b → parse b = some 42 →
       ∀ h, Event.deleteMsg h ∉ processMessage demoEnvRejected parse m) :=
  ⟨rfl,
    (integrity_gate_acceptance_iff_200 demoEnvRejected 42).2
      (Or.inr (Or.inr ⟨"verdict", { statusCode := 500, respBody := Json.null },
        rfl, rfl, by decide⟩))⟩

/-- C4: when the integrity gate has passed but the registry scan yields no
descriptor with a Healthy state, no worker invocation is made and the
message is not acknowledged. -/
theorem no_dispatch_without_healthy_worker
    (env : Env α Item) (msg : α) (p : String) (r : LambdaResponse)
    (items : List Item)
    (hI : InvokeSync env.invoke IntegrityLambda msg = some p)
    (hP : env.parseLambdaResponse p = some r) (hsc : r.statusCode = 200)
    (hS : env.scan = Except.ok items)
    (hF : healthyLambdas env.unmarshalLambda items = Except.ok []) :
    handleBusinessLogic env msg =
      ([Event.invokeValidator IntegrityLambda msg, Event.scanRegistry],
       Except.error "no healthy lambdas found") ∧
    (∀ arn q, Event.invokeWorker arn q ∉ (handleBusinessLogic env msg).1) ∧
    ∀ (parse : String → Option α) (m : Message) (b : String),
      m.body = some b → parse b = some msg →
      ∀ h, Event.deleteMsg h ∉ processMessage env parse m := by
  have hbl := handleBusinessLogic_gate_pass hI hP hsc
  rw [hS] at hbl
  dsimp only at hbl
  rw [hF] at hbl
  refine ⟨hbl, ?_, ?_⟩
  · intro arn q hmem
    rw [hbl] at hmem
    simp at hmem
  · intro parse m b hb hp h
    have herr : (handleBusinessLogic env msg).2 =
        Except.error "no healthy lambdas found" := by rw [hbl]
    rw [processMessage_of_error hb hp herr]
    exact handleBusinessLogic_no_delete env msg h

/-- Witness for C4: a registry containing only the unhealthy descriptor
leads to no dispatch and no acknowledgement. -/
theorem no_dispatch_without_healthy_worker_witness :
    demoEnvUnhealthyOnly.scan = Except.ok [2] ∧
    healthyLambdas demoEnvUnhealthyOnly.unmarshalLambda [2] = Except.ok [] ∧
    (handleBusinessLogic demoEnvUnhealthyOnly 42 =
      ([Event.invokeValidator IntegrityLambda 42, Event.scanRegistry],
       Except.error "no healthy lambdas found") ∧
     (∀ arn q, Event.invokeWorker arn q ∉ (handleBusinessLogic demoEnvUnhealthyOnly 42).1) ∧
     ∀ (parse : String → Option Nat) (m : Message) (b : String),
       m.body = some b → parse b = some 42 →
       ∀ h, Event.deleteMsg h ∉ processMessage demoEnvUnhealthyOnly parse m) :=
  ⟨rfl, rfl,
    no_dispatch_without_healthy_worker demoEnvUnhealthyOnly 42 "verdict"
      { statusCode := 200, respBody := Json.null } [2] rfl rfl rfl rfl rfl⟩

/-- C5: every descriptor kept by the health filter is Healthy and never the
Unhealthy flag; the selected worker is always a member of the filtered set;
a singleton healthy set is selected deterministically under every random
source; with several candidates the chosen index is exactly the value
returned by rand.Intn over the set's size, so a uniform Intn induces a
uniform choice over the healthy candidates. -/
theorem selection_healthy_and_uniform
    (unm : Item → Option Lambda) (items : List Item) (ls : List Lambda)
    (rand : Nat → Nat)
    (hF : healthyLambdas unm items = Except.ok ls)
    (hrand : ∀ n, 0 < n → rand n < n) :
    (∀ l ∈ ls, l.status = Healthy ∧ l.status ≠ Unhealthy) ∧
    (∀ l rest, ls = l :: rest →
      selectLambda rand l rest ∈ ls ∧
      (rest = [] → ∀ rand' : Nat → Nat, selectLambda rand' l rest = l) ∧
      (rest ≠ [] →
        selectLambda rand l rest = ls.getD (rand ls.length) l ∧
        ∀ k, k < ls.length → selectLambda (fun _ => k) l rest = ls.getD k l)) := by
  constructor
  · intro l hl
    have hh := healthyLambdas_mem hF l hl
    refine ⟨hh, ?_⟩
    rw [hh]
    intro hcontra
    simp [Healthy, Unhealthy] at hcontra
  · rintro l rest rfl
    refine ⟨selectLambda_mem hrand l rest, ?_, ?_⟩
    · rintro rfl rand'
      rfl
    · intro hne
      cases rest with
      | nil => exact absurd rfl hne
      | cons c cs => exact ⟨rfl, fun k _ => rfl⟩

/-- Witness for C5: the demo registry filters down to the two healthy
descriptors A and B, and selection behaves as stated. -/
theorem selection_healthy_and_uniform_witness :
    healthyLambdas demoUnmarshal demoItems = Except.ok [demoLambdaA, demoLambdaB] ∧
    ((∀ l ∈ [demoLambdaA, demoLambdaB], l.status = Healthy ∧ l.status ≠ Unhealthy) ∧
     (∀ l rest, [demoLambdaA, demoLambdaB] = l :: rest →
       selectLambda (fun _ => 0) l rest ∈ [demoLambdaA, demoLambdaB] ∧
       (rest = [] → ∀ rand' : Nat → Nat, selectLambda rand' l rest = l) ∧
       (rest ≠ [] →
         selectLambda (fun _ => 0) l rest =
           ([demoLambdaA, demoLambdaB]).getD ((fun _ : Nat => 0) ([demoLambdaA, demoLambdaB]).length) l ∧
         ∀ k, k < ([demoLambdaA, demoLambdaB]).length →
           selectLambda (fun _ => k) l rest = ([demoLambdaA, demoLambdaB]).getD k l))) :=
  ⟨rfl,
    selection_healthy_and_uniform demoUnmarshal demoItems [demoLambdaA, demoLambdaB]
      (fun _ => 0) rfl (fun _ hn => hn)⟩

/-- C6: the dispatch invokes the worker at the selected descriptor's ARN
with the original decoded payload (never any other payload, in particular
not the integrity verdict); InvokeSync fails exactly on a transport error
or an embedded function-error signal, and a failed dispatch leaves the
message unacknowledged. -/
theorem dispatch_uses_selected_arn_and_payload
    (env : Env α Item) (msg : α) (p : String) (r : LambdaResponse)
    (items : List Item) (l : Lambda) (rest : List Lambda)
    (hI : InvokeSync env.invoke IntegrityLambda msg = some p)
    (hP : env.parseLambdaResponse p = some r) (hsc : r.statusCode = 200)
    (hS : env.scan = Except.ok items)
    (hF : healthyLambdas env.unmarshalLambda items = Except.ok (l :: rest)) :
    (Event.invokeWorker (selectLambda env.randIntn l rest).arn msg ∈
       (handleBusinessLogic env msg).1) ∧
    (∀ arn q, Event.invokeWorker arn q ∈ (handleBusinessLogic env msg).1 →
       arn = (selectLambda env.randIntn l rest).arn ∧ q = msg) ∧
    (∀ fn q, InvokeSync env.invoke fn q = none ↔
       env.invoke fn q = InvokeResult.transportError ∨
       ∃ pay fe, env.invoke fn q = InvokeResult.response pay (some fe)) ∧
    (InvokeSync env.invoke (selectLambda env.randIntn l rest).arn msg = none →
       (handleBusinessLogic env msg).2 = Except.error "error invoking lambda" ∧
       ∀ (parse : String → Option α) (m : Message) (b : String),
         m.body = some b → parse b = some msg →
         ∀ h, Event.deleteMsg h ∉ processMessage env parse m) := by
  have hbl := handleBusinessLogic_gate_pass hI hP hsc
  rw [hS] at hbl
  dsimp only at hbl
  rw [hF] at hbl
  dsimp only at hbl
  refine ⟨?_, ?_, ?_, ?_⟩
  · rcases hW : InvokeSync env.invoke (selectLambda env.randIntn l rest).arn msg with _ | resp
    · rw [hW] at hbl
      rw [hbl]
      simp
    · rw [hW] at hbl
      rw [hbl]
      simp
  · intro arn q hmem
    rcases hW : InvokeSync env.invoke (selectLambda env.randIntn l rest).arn msg with _ | resp
    · rw [hW] at hbl
      rw [hbl] at hmem
      simp at hmem
      exact hmem
    · rw [hW] at hbl
      rw [hbl] at hmem
      simp at hmem
      exact hmem
  · intro fn q
    unfold InvokeSync
    rcases hinv : env.invoke fn q with _ | ⟨pay, fe⟩
    · simp
    · rcases fe with _ | f <;> simp
  · intro hW
    rw [hW] at hbl
    have herr : (handleBusinessLogic env msg).2 = Except.error "error invoking lambda" := by
      rw [hbl]
    refine ⟨herr, ?_⟩
    intro parse m b hb hp h
    rw [processMessage_of_error hb hp herr]
    exact handleBusinessLogic_no_delete env msg h

/-- Witness for C6: in the all-success demo environment the dispatch event
carries worker A's ARN and the original payload. -/
theorem dispatch_uses_selected_arn_and_payload_witness :
    healthyLambdas demoEnvOk.unmarshalLambda demoItems =
      Except.ok [demoLambdaA, demoLambdaB] ∧
    (Event.invokeWorker (selectLambda demoEnvOk.randIntn demoLambdaA [demoLambdaB]).arn 42 ∈
       (handleBusinessLogic demoEnvOk 42).1 ∧
     (∀ arn q, Event.invokeWorker arn q ∈ (handleBusinessLogic demoEnvOk 42).1 →
        arn = (selectLambda demoEnvOk.randIntn demoLambdaA [demoLambdaB]).arn ∧ q = 42) ∧
     (∀ fn q, InvokeSync demoEnvOk.invoke fn q = none ↔
        demoEnvOk.invoke fn q = InvokeResult.transportError ∨
        ∃ pay fe, demoEnvOk.invoke fn q = InvokeResult.response pay (some fe)) ∧
     (InvokeSync demoEnvOk.invoke
        (selectLambda demoEnvOk.randIntn demoLambdaA [demoLambdaB]).arn 42 = none →
        (handleBusinessLogic demoEnvOk 42).2 = Except.error "error invoking lambda" ∧
        ∀ (parse : String → Option Nat) (m : Message) (b : String),
          m.body = some b → parse b = some 42 →
          ∀ h, Event.deleteMsg h ∉ processMessage demoEnvOk parse m)) :=
  ⟨rfl,
    dispatch_uses_selected_arn_and_payload demoEnvOk 42 "verdict"
      { statusCode := 200, respBody := Json.null } demoItems demoLambdaA [demoLambdaB]
      rfl rfl rfl rfl rfl⟩

/-- C7: each poll cycle requests a batch of at most 10 messages; a failed
receive yields only a fixed 5-second back-off with no message processed; a
successful receive processes every returned message sequentially, one at a
time, in receipt order. -/
theorem poll_cycle_batch_backoff_and_order
    (env : Env α Item) (parse : String → Option α)
    (receive : ReceiveMessageInput → Except String (List Message)) :
    receiveInput.maxNumberOfMessages = 10 ∧
    (∀ e, receive receiveInput = Except.error e →
      pollMessages env parse receive = PollResult.backoff 5) ∧
    (∀ msgs, receive receiveInput = Except.ok msgs →
      pollMessages env parse receive =
        PollResult.processed (msgs.map (processMessage env parse)) ∧
      (msgs.map (processMessage env parse)).length = msgs.length ∧
      ∀ i, i < msgs.length →
        (msgs.map (processMessage env parse)).getD i [] =
          processMessage env parse
            (msgs.getD i { body := none, receiptHandle := none, messageId := none })) := by
  refine ⟨rfl, ?_, ?_⟩
  · intro e he
    unfold pollMessages
    rw [he]
  · intro msgs hok
    refine ⟨by unfold pollMessages; rw [hok], by simp, ?_⟩
    intro i hi
    rw [List.getD_eq_getElem _ _ (by simpa using hi), List.getD_eq_getElem _ _ hi]
    simp

/-- Witness for C7: a failing receive produces exactly the 5-second
back-off. -/
theorem poll_cycle_batch_backoff_and_order_witness :
    pollMessages demoEnvOk demoParseNat (fun _ => Except.error "receive failed") =
      PollResult.backoff 5 :=
  (poll_cycle_batch_backoff_and_order demoEnvOk demoParseNat
    (fun _ => Except.error "receive failed")).2.1 "receive failed" rfl

/-- C8 counterexample: under one and the same startup configuration the two
variants present in the source run different envelope formats (the
orchestrator variant always unmarshals the raw body, the SNS variant always
unwraps the envelope), so the active format is not selected by a
configuration value. -/
theorem envelope_format_not_config_selected :
    variantDirectFormat { queueURL := "q", region := "us-east-1", healthPort := "8080" } ≠
      variantEnvelopedFormat { queueURL := "q", region := "us-east-1", healthPort := "8080" } := by
  decide

/-- C8 amended: each variant runs exactly one envelope format, fixed in its
code independently of the startup configuration, and neither auto-detects
per message: the direct variant's decode is the raw-body unmarshal for
every parse oracle and body, and handed an SNS-envelope-shaped body it
returns the envelope object itself rather than the unwrapped inner payload
(which the enveloped variant extracts). -/
theorem envelope_format_fixed_per_variant :
    (∀ cfg cfg' : Config, variantDirectFormat cfg = variantDirectFormat cfg' ∧
       variantEnvelopedFormat cfg = variantEnvelopedFormat cfg' ∧
       variantDirectFormat cfg = EnvelopeFormat.direct ∧
       variantEnvelopedFormat cfg = EnvelopeFormat.enveloped) ∧
    (∀ (parse : String → Option Json) (body : String),
       decodeDirect parse body = parse body) ∧
    decodeDirect demoParse envBody = some envTree ∧
    decodeEnveloped demoParse envBody = some innerFields ∧
    envTree ≠ Json.obj innerFields := by
  refine ⟨fun _ _ => ⟨rfl, rfl, rfl, rfl⟩, fun _ _ => rfl, rfl, ?_, ?_⟩
  · rfl
  · intro h
    simp [envTree, innerFields] at h

/-- C9: one registry item that fails to unmarshal aborts the whole
health-filter step with an error — even when other items are well-formed
and Healthy — so no worker is invoked and the message stays
unacknowledged. -/
theorem malformed_registry_item_aborts_filter
    (env : Env α Item) (msg : α) (p : String) (r : LambdaResponse)
    (items : List Item) (bad : Item)
    (hI : InvokeSync env.invoke IntegrityLambda msg = some p)
    (hP : env.parseLambdaResponse p = some r) (hsc : r.statusCode = 200)
    (hS : env.scan = Except.ok items)
    (hbad : bad ∈ items) (hunm : env.unmarshalLambda bad = none) :
    (∃ e, healthyLambdas env.unmarshalLambda items = Except.error e) ∧
    (∃ e, handleBusinessLogic env msg =
       ([Event.invokeValidator IntegrityLambda msg, Event.scanRegistry],
        Except.error e)) ∧
    (∀ arn q, Event.invokeWorker arn q ∉ (handleBusinessLogic env msg).1) ∧
    ∀ (parse : String → Option α) (m : Message) (b : String),
      m.body = some b → parse b = some msg →
      ∀ h, Event.deleteMsg h ∉ processMessage env parse m := by
  obtain ⟨e, he⟩ := healthyLambdas_error_of_bad hbad hunm
  have hbl := handleBusinessLogic_gate_pass hI hP hsc
  rw [hS] at hbl
  dsimp only at hbl
  rw [he] at hbl
  refine ⟨⟨e, he⟩, ⟨e, hbl⟩, ?_, ?_⟩
  · intro arn q hmem
    rw [hbl] at hmem
    simp at hmem
  · intro parse m b hb hp h
    have herr : (handleBusinessLogic env msg).2 = Except.error e := by rw [hbl]
    rw [processMessage_of_error hb hp herr]
    exact handleBusinessLogic_no_delete env msg h

/-- Witness for C9: a scan containing healthy item 0 together with the
malformed item 7 aborts the filter and defers the message. -/
theorem malformed_registry_item_aborts_filter_witness :
    demoEnvBadItem.scan = Except.ok [0, 7] ∧
    demoEnvBadItem.unmarshalLambda 0 = some demoLambdaA ∧
    demoLambdaA.status = Healthy ∧
    demoEnvBadItem.unmarshalLambda 7 = none ∧
    ((∃ e, healthyLambdas demoEnvBadItem.unmarshalLambda [0, 7] = Except.error e) ∧
     (∃ e, handleBusinessLogic demoEnvBadItem 42 =
        ([Event.invokeValidator IntegrityLambda 42, Event.scanRegistry],
         Except.error e)) ∧
     (∀ arn q, Event.invokeWorker arn q ∉ (handleBusinessLogic demoEnvBadItem 42).1) ∧
     ∀ (parse : String → Option Nat) (m : Message) (b : String),
       m.body = some b → parse b = some 42 →
       ∀ h, Event.deleteMsg h ∉ processMessage demoEnvBadItem parse m) :=
  ⟨rfl, rfl, rfl, rfl,
    malformed_registry_item_aborts_filter demoEnvBadItem 42 "verdict"
      { statusCode := 200, respBody := Json.null } [0, 7] 7
      rfl rfl rfl rfl (by simp) rfl⟩

/-- C10: in the direct variant the decode step is exactly the JSON-into-any
unmarshal: every syntactically valid JSON value — objects and non-objects
such as numbers, strings, booleans and null alike — is accepted and handed
to the business logic unchanged, and the drop-immediately path (no
validator call) is taken exactly when the body is absent or fails to
parse. -/
theorem direct_decode_accepts_all_json
    (env : Env Json Item) (parse : String → Option Json) (m : Message) :
    ((∀ fn p, Event.invokeValidator fn p ∉ processMessage env parse m) ↔
      (m.body = none ∨ ∃ b, m.body = some b ∧ parse b = none)) ∧
    (∀ b v, m.body = some b → parse b = some v →
      Event.invokeValidator IntegrityLambda v ∈ processMessage env parse m) ∧
    ((m.body = none ∨ ∃ b, m.body = some b ∧ parse b = none) →
      processMessage env parse m = deleteMessage m) := by
  have hmemOf : ∀ b v, m.body = some b → parse b = some v →
      Event.invokeValidator IntegrityLambda v ∈ processMessage env parse m := by
    intro b v hb hp
    obtain ⟨tl, htl⟩ := handleBusinessLogic_fst_head env v
    rw [processMessage_of_decode hb hp]
    rw [htl]
    simp
  have hdrop : (m.body = none ∨ ∃ b, m.body = some b ∧ parse b = none) →
      processMessage env parse m = deleteMessage m := by
    intro hdec
    unfold processMessage
    rcases hdec with hb | ⟨b, hb, hpb⟩
    · rw [hb]
    · rw [hb]
      dsimp only
      rw [hpb]
  refine ⟨⟨?_, ?_⟩, hmemOf, hdrop⟩
  · intro hno
    rcases hb : m.body with _ | b
    · exact Or.inl rfl
    · rcases hp : parse b with _ | v
      · exact Or.inr ⟨b, rfl, hp⟩
      · exact absurd (hmemOf b v hb hp) (hno IntegrityLambda v)
  · intro hdec fn p hmem
    rw [hdrop hdec] at hmem
    rcases deleteMessage_mem hmem with ⟨h, heq⟩
    cases heq

/-- Witness for C10: the non-object JSON value 42 flows through decode into
the validator call. -/
theorem direct_decode_accepts_all_json_witness :
    demoMsg.body = some "42" ∧ demoParse "42" = some (Json.num 42) ∧
    Event.invokeValidator IntegrityLambda (Json.num 42) ∈
      processMessage demoEnvJson demoParse demoMsg :=
  ⟨rfl, rfl,
    (direct_decode_accepts_all_json demoEnvJson demoParse demoMsg).2.1
      "42" (Json.num 42) rfl rfl⟩

/-- Witness for the amended C8: at a concrete configuration the direct
variant's format is direct and the enveloped variant's is enveloped. -/
theorem envelope_format_fixed_per_variant_witness :
    variantDirectFormat { queueURL := "q", region := "us-east-1", healthPort := "8080" } =
      EnvelopeFormat.direct ∧
    variantEnvelopedFormat { queueURL := "q", region := "us-east-1", healthPort := "8080" } =
      EnvelopeFormat.enveloped :=
  ⟨(envelope_format_fixed_per_variant.1
      { queueURL := "q", region := "us-east-1", healthPort := "8080" }
      { queueURL := "q", region := "us-east-1", healthPort := "8080" }).2.2.1,
   (envelope_format_fixed_per_variant.1
      { queueURL := "q", region := "us-east-1", healthPort := "8080" }
      { queueURL := "q", region := "us-east-1", healthPort := "8080" }).2.2.2⟩
